import Mathlib

/-!
Verification of the stockfish actor module (`src/stockfish.rs`): the UCI
protocol encoder, the streaming response decoder, the one-time engine
initialization, and the actor run loop with its mailbox discipline.

Types from the crate's `api`, `ipc` and `assets` modules are not part of the
reviewed source; they are modelled from the specification where noted.
-/

set_option maxHeartbeats 1000000

namespace Fishnet

/-! ## Parsing primitives (Rust `str::parse` on the token types used) -/

/-- Value of a list of decimal digit characters, most significant first. -/
def digitsVal (cs : List Char) : Nat :=
  cs.foldl (fun a c => a * 10 + (c.toNat - '0'.toNat)) 0

/-- Parse a nonempty all-digit character list (no sign). -/
def parseDigits? (cs : List Char) : Option Nat :=
  if cs.isEmpty then none
  else if cs.all Char.isDigit then some (digitsVal cs)
  else none

/-- Rust unsigned-integer `FromStr`: an optional leading plus sign followed by
one or more decimal digits. Widths of fields whose types live outside the
reviewed source are modelled as unbounded. -/
def parseNat? (s : String) : Option Nat :=
  match s.data with
  | '+' :: cs => parseDigits? cs
  | cs => parseDigits? cs

/-- Rust signed-integer `FromStr`: an optional leading sign followed by one or
more decimal digits. -/
def parseInt? (s : String) : Option Int :=
  match s.data with
  | '-' :: cs => (parseDigits? cs).map (fun n => -(n : Int))
  | '+' :: cs => (parseDigits? cs).map (fun n => (n : Int))
  | cs => (parseDigits? cs).map (fun n => (n : Int))

/-- Rust `NonZeroU8` `FromStr`, as used for the `multipv` field: a `u8`
(value below 256) that is additionally nonzero. -/
def parseMultipv? (s : String) : Option Nat :=
  (parseNat? s).bind (fun n => if 1 ≤ n ∧ n ≤ 255 then some n else none)

def isFileChar (c : Char) : Bool := 'a' ≤ c && c ≤ 'h'

def isRankChar (c : Char) : Bool := '1' ≤ c && c ≤ '8'

def isPromoChar (c : Char) : Bool :=
  c = 'q' || c = 'r' || c = 'b' || c = 'n' || c = 'k'

/-- Modelled from the spec: moves are opaque values of the external chess
library, parsed from UCI move text. Modelled as the null move `0000`, a
square pair, or a square pair with a promotion piece. -/
def isUciMove (s : String) : Bool :=
  match s.data with
  | ['0', '0', '0', '0'] => true
  | [f1, r1, f2, r2] => isFileChar f1 && isRankChar r1 && isFileChar f2 && isRankChar r2
  | [f1, r1, f2, r2, p] =>
      isFileChar f1 && isRankChar r1 && isFileChar f2 && isRankChar r2 && isPromoChar p
  | _ => false

/-- Modelled from the spec: `str::parse` to the external move type; we keep
the move as its validated UCI string. -/
def parseUciMove (s : String) : Option String :=
  if isUciMove s then some s else none

/-- Rust `str::trim_end`: drop trailing whitespace. -/
def rustTrimEnd (s : String) : String :=
  ⟨(s.data.reverse.dropWhile Char.isWhitespace).reverse⟩

/-- Rust `str::split(' ')` on the character list: split at every single
space, keeping empty segments (so `""` gives one empty segment and two
adjacent spaces enclose an empty segment). -/
def splitSpacesAux : List Char → List (List Char)
  | [] => [[]]
  | c :: rest =>
      if c = ' ' then [] :: splitSpacesAux rest
      else
        match splitSpacesAux rest with
        | [] => [[c]]
        | w :: ws => (c :: w) :: ws

/-- Rust `line.split(' ')`, as a list of token strings. -/
def splitSpaces (s : String) : List String :=
  (splitSpacesAux s.data).map (fun cs => ⟨cs⟩)

/-! ## Errors (`io::Error` values constructed in `stockfish.rs`) -/

/-- The `io::Error` values the module constructs or observes: an
`InvalidData` protocol error with its message, or end-of-stream from
`Stdout::read_line`. -/
inductive IOErr where
  | invalidData (msg : String)
  | unexpectedEof
deriving DecidableEq, Repr

/-- The source's error enum: an IoError wrapping an io error, or Shutdown. -/
inductive EngineError where
  | ioError (e : IOErr)
  | shutdown
deriving DecidableEq, Repr

instance exceptDecEq {ε α : Type} [DecidableEq ε] [DecidableEq α] :
    DecidableEq (Except ε α) := fun x y =>
  match x, y with
  | .ok a, .ok b =>
      if h : a = b then .isTrue (by rw [h]) else .isFalse (fun hc => h (Except.ok.inj hc))
  | .error a, .error b =>
      if h : a = b then .isTrue (by rw [h]) else .isFalse (fun hc => h (Except.error.inj hc))
  | .ok _, .error _ => .isFalse (fun hc => Except.noConfusion hc)
  | .error _, .ok _ => .isFalse (fun hc => Except.noConfusion hc)

/-! ## Response Table (`ipc::Matrix`, not in the reviewed source) -/

/-- Modelled from the spec: the Response Table, a sparse table keyed by
(search-line index, depth) where later writes for the same key overwrite
earlier ones. -/
structure Matrix (α : Type) where
  entries : List ((Nat × Nat) × α)
deriving DecidableEq, Repr

/-- Modelled from the spec: `Matrix::new`, the empty table. -/
def Matrix.new {α : Type} : Matrix α := ⟨[]⟩

/-- Modelled from the spec: keyed overwrite write. -/
def Matrix.set {α : Type} (m : Matrix α) (line depth : Nat) (v : α) : Matrix α :=
  ⟨((line, depth), v) :: m.entries.filter (fun e => !(e.1 == (line, depth)))⟩

/-- Lookup of the entry at a key. -/
def Matrix.get? {α : Type} (m : Matrix α) (line depth : Nat) : Option α :=
  (m.entries.find? (fun e => e.1 == (line, depth))).map (·.2)

/-- Modelled from the spec: the "best known" accessor reads the entry for
line index 1, at the greatest depth recorded for that line. -/
def Matrix.bestEntry {α : Type} (m : Matrix α) : Option ((Nat × Nat) × α) :=
  (m.entries.filter (fun e => e.1.1 == 1)).foldl
    (fun acc e =>
      match acc with
      | none => some e
      | some a => if a.1.2 < e.1.2 then some e else some a)
    none

/-- Modelled from the spec: `Matrix::best`, the value of the best known
entry for line index 1. -/
def Matrix.best {α : Type} (m : Matrix α) : Option α :=
  m.bestEntry.map (·.2)

/-! ## Work orders (`api::Work`, `ipc::Position`, not in the reviewed source) -/

/-- Modelled from the spec: score values, a centipawn integer or a
forced-mate count, tagged accordingly. -/
inductive Score where
  | cp (v : Int)
  | mate (v : Int)
deriving DecidableEq, Repr

/-- Modelled from the spec: engine flavor — the official engine or the
multi-variant engine. -/
inductive EngineFlavor where
  | official
  | multiVariant
deriving DecidableEq, Repr

/-- Modelled from the spec: which evaluation mode applies. -/
inductive EvalFlavor where
  | hce
  | nnue
deriving DecidableEq, Repr

def EvalFlavor.isNnue : EvalFlavor → Bool
  | .hce => false
  | .nnue => true

/-- Modelled from the spec: the evaluation flavor of an engine flavor. -/
def EngineFlavor.evalFlavor : EngineFlavor → EvalFlavor
  | .official => .nnue
  | .multiVariant => .hce

/-- Modelled from the spec: node budget appropriate to the evaluation
flavor. -/
structure NodeLimit where
  nnueNodes : Nat
  classicalNodes : Nat
deriving DecidableEq, Repr

def NodeLimit.get (n : NodeLimit) : EvalFlavor → Nat
  | .nnue => n.nnueNodes
  | .hce => n.classicalNodes

/-- Modelled from the spec: the strength level of a Move-kind order, with
its derived skill level, move-time allowance (milliseconds) and depth
allowance. -/
structure MoveLevel where
  skillLevel : Nat
  timeMs : Nat
  depthLimit : Nat
deriving DecidableEq, Repr

/-- Modelled from the spec: game clock data — remaining time for both sides
and the increment, in whole milliseconds. -/
structure Clock where
  wtime : Nat
  btime : Nat
  inc : Nat
deriving DecidableEq, Repr

/-- Modelled from the spec: the two work kinds, each carrying only its
relevant fields, plus the requested number of parallel search lines. -/
inductive Work where
  | move (multipvCount : Nat) (level : MoveLevel) (clock : Option Clock)
  | analysis (multipvCount : Nat) (nodes : NodeLimit) (depth : Option Nat)
deriving DecidableEq, Repr

/-- Accessor for the requested number of parallel search lines. -/
def Work.multipv : Work → Nat
  | .move mv _ _ => mv
  | .analysis mv _ _ => mv

/-- Modelled from the spec: `ipc::Position`, the work order as seen by the
actor — the fields `stockfish.rs` reads. Positions, variants and URLs are
opaque pre-validated values, modelled as strings. -/
structure Position where
  work : Work
  position_id : Nat
  url : Option String
  flavor : EngineFlavor
  variant : String
  root_fen : String
  moves : List String
deriving DecidableEq, Repr

/-- Modelled from the spec: `ipc::PositionResponse`, the fields assembled at
the terminal line. -/
structure PositionResponse where
  work : Work
  position_id : Nat
  url : Option String
  best_move : Option String
  scores : Matrix Score
  depth : Nat
  pvs : Matrix (List String)
  time : Nat
  nodes : Nat
  nps : Option Nat
deriving DecidableEq, Repr

/-! ## Encoder (`StockfishActor::go`, write side) -/

/-- The one-time initialization commands written by `StockfishActor::init`. -/
def initCmds (nnue : String) : List String :=
  [s!"setoption name EvalFile value {nnue}",
   "setoption name UCI_Chess960 value true",
   "isready"]

/-- The token list of the `go` command built in `StockfishActor::go`. -/
def goTokens (pos : Position) : List String :=
  match pos.work with
  | .move _ level clock =>
      ["go", "movetime", toString level.timeMs, "depth", toString level.depthLimit]
        ++ (match clock with
            | none => []
            | some c =>
                ["wtime", toString c.wtime, "btime", toString c.btime,
                 "winc", toString c.inc, "binc", toString c.inc])
  | .analysis _ nodes depth =>
      let budget := nodes.get pos.flavor.evalFlavor
      ["go", "nodes", toString budget]
        ++ (match depth with
            | none => []
            | some d => ["depth", toString d])

/-- The analysis-mode and skill commands of the work-kind branch of
`StockfishActor::go`. -/
def modeCmds : Work → List String
  | .move _ level _ =>
      let skill := level.skillLevel
      ["setoption name UCI_AnalyseMode value false",
       s!"setoption name Skill Level value {skill}"]
  | .analysis _ _ _ =>
      ["setoption name UCI_AnalyseMode value true",
       "setoption name Skill Level value 20"]

/-- The per-order command sequence written by `StockfishActor::go` before it
starts reading responses. -/
def orderCmds (pos : Position) : List String :=
  let nnueFlag := pos.flavor.evalFlavor.isNnue
  let variantName := pos.variant
  let mv := pos.work.multipv
  let fen := pos.root_fen
  let movesJoined := String.intercalate " " pos.moves
  ["ucinewgame", s!"setoption name Use NNUE value {nnueFlag}"]
    ++ (if pos.flavor = .multiVariant
        then [s!"setoption name UCI_Variant value {variantName}"] else [])
    ++ [s!"setoption name MultiPV value {mv}",
        s!"position fen {fen} moves {movesJoined}"]
    ++ modeCmds pos.work
    ++ [String.intercalate " " (goTokens pos)]

/-! ## Decoder (`StockfishActor::go`, read side) -/

/-- The mutable locals of the response loop in `StockfishActor::go`, reset
for every order just before the loop starts. -/
structure GoState where
  scores : Matrix Score
  pvs : Matrix (List String)
  depth : Nat
  multipv : Nat
  time : Nat
  nodes : Nat
  nps : Option Nat
deriving DecidableEq, Repr

/-- The initial values of the response-loop locals: empty tables, depth 0,
line index 1, zero time and nodes, no nps. -/
def initState : GoState :=
  { scores := Matrix.new, pvs := Matrix.new, depth := 0,
    multipv := 1, time := 0, nodes := 0, nps := none }

/-- The `pv` branch of the info loop: parse every remaining token as a move,
failing with `invalid pv` on the first unparseable one. -/
def parsePv : List String → Except IOErr (List String)
  | [] => .ok []
  | t :: ts =>
      match parseUciMove t with
      | none => .error (.invalidData "invalid pv")
      | some m =>
          match parsePv ts with
          | .error e => .error e
          | .ok ms => .ok (m :: ms)

/-- The `while let Some(part) = parts.next()` loop over the tokens of an
`info` line, updating the response-loop locals left to right. -/
def infoLoop (st : GoState) : List String → Except IOErr GoState
  | [] => .ok st
  | "multipv" :: t :: rest =>
      match parseMultipv? t with
      | none => .error (.invalidData "expected multipv")
      | some v => infoLoop { st with multipv := v } rest
  | ["multipv"] => .error (.invalidData "expected multipv")
  | "depth" :: t :: rest =>
      match parseNat? t with
      | none => .error (.invalidData "expected depth")
      | some v => infoLoop { st with depth := v } rest
  | ["depth"] => .error (.invalidData "expected depth")
  | "nodes" :: t :: rest =>
      match parseNat? t with
      | none => .error (.invalidData "expected nodes")
      | some v => infoLoop { st with nodes := v } rest
  | ["nodes"] => .error (.invalidData "expected nodes")
  | "time" :: t :: rest =>
      match parseNat? t with
      | none => .error (.invalidData "expected time")
      | some v => infoLoop { st with time := v } rest
  | ["time"] => .error (.invalidData "expected time")
  | "nps" :: t :: rest => infoLoop { st with nps := parseNat? t } rest
  | ["nps"] => .ok { st with nps := none }
  | "score" :: "cp" :: t :: rest =>
      match parseInt? t with
      | none => .error (.invalidData "expected score")
      | some v =>
          infoLoop { st with scores := st.scores.set st.multipv st.depth (.cp v) } rest
  | "score" :: "mate" :: t :: rest =>
      match parseInt? t with
      | none => .error (.invalidData "expected score")
      | some v =>
          infoLoop { st with scores := st.scores.set st.multipv st.depth (.mate v) } rest
  | ["score", "cp"] => .error (.invalidData "expected score")
  | ["score", "mate"] => .error (.invalidData "expected score")
  | "score" :: _ => .error (.invalidData "expected cp or mate")
  | "pv" :: rest =>
      match parsePv rest with
      | .error e => .error e
      | .ok ms => .ok { st with pvs := st.pvs.set st.multipv st.depth ms }
  | _ :: rest => infoLoop st rest

/-- Outcome of processing one engine output line: either the loop continues
with updated locals, or the terminal line produced a response. -/
inductive Step where
  | cont (st : GoState)
  | done (r : PositionResponse)
deriving DecidableEq, Repr

/-- The response assembled at the `bestmove` line from the originating order
and the accumulated locals. -/
def mkResponse (pos : Position) (st : GoState) (bm : Option String) : PositionResponse :=
  { work := pos.work, position_id := pos.position_id, url := pos.url,
    best_move := bm, scores := st.scores, depth := st.depth, pvs := st.pvs,
    time := st.time, nodes := st.nodes, nps := st.nps }

/-- Dispatch on the first token of a line, as in the response loop's
`match parts.next()`: `bestmove`, `info`, or anything else (logged and
skipped). -/
def processParts (pos : Position) (st : GoState) : List String → Except IOErr Step
  | "bestmove" :: rest =>
      if (st.scores.best).isNone then .error (.invalidData "missing score")
      else .ok (.done (mkResponse pos st (rest.head?.bind parseUciMove)))
  | "info" :: rest => (infoLoop st rest).map .cont
  | _ => .ok (.cont st)

/-- Process one engine output line: split on single spaces (Rust
`line.split(' ')`) and dispatch on the first token. -/
def processLine (pos : Position) (st : GoState) (line : String) : Except IOErr Step :=
  processParts pos st (splitSpaces line)

/-- The response loop of `StockfishActor::go` over a finite transcript of
engine output lines; running out of lines is the `read_line` end-of-stream
error. -/
def decodeLoop (pos : Position) (st : GoState) : List String → Except IOErr PositionResponse
  | [] => .error .unexpectedEof
  | l :: rest =>
      match processLine pos st l with
      | .error e => .error e
      | .ok (.done r) => .ok r
      | .ok (.cont st') => decodeLoop pos st' rest

/-- Decode an order's transcript, starting from the freshly reset locals. -/
def decodeLines (pos : Position) (lines : List String) : Except IOErr PositionResponse :=
  decodeLoop pos initState lines

/-! ## One-time initialization (`StockfishActor::init`) -/

/-- The read loop of `StockfishActor::init`: consume engine output lines
until one whose trimmed end equals `readyok` (banner and unexpected lines
are only logged), returning the remaining transcript; end of stream is the
`read_line` error. -/
def initConsume : List String → Except IOErr (List String)
  | [] => .error .unexpectedEof
  | l :: rest =>
      if rustTrimEnd l = "readyok" then .ok rest else initConsume rest

/-- One call of `StockfishActor::go` against a finite engine transcript:
when initialization is still pending, the init commands are written and the
transcript consumed up to `readyok` before any per-order command is written;
then the per-order commands are written and the rest of the transcript is
decoded. Returns the lines written to the engine and the outcome. -/
def goModel (initPending : Bool) (nnue : String) (pos : Position)
    (transcript : List String) : List String × Except IOErr PositionResponse :=
  if initPending then
    match initConsume transcript with
    | .error e => (initCmds nnue, .error e)
    | .ok rest => (initCmds nnue ++ orderCmds pos, decodeLines pos rest)
  else (orderCmds pos, decodeLines pos transcript)

/-! ## Actor run loop (`StockfishActor::run_inner` / `handle_message`) -/

/-- One `StockfishMessage::Go` delivery as the run loop sees it. The two
flags resolve the races of `handle_message`: `callbackClosed` records that
the caller dropped the reply channel and `callback.closed()` won the select
against `go`; `receiverGoneAtSend` records that the reply channel was
dropped only between completion of `go` and `callback.send`. -/
structure GoMsg where
  position : Position
  transcript : List String
  callbackClosed : Bool
  receiverGoneAtSend : Bool
deriving DecidableEq, Repr

/-- Outcome of `StockfishActor::handle_message` for one message: the lines
written to the engine, whether initialization is still pending afterwards,
and the result — an error propagated by `?`, or `Ok` with the reply that was
delivered (`none` when `callback.send` failed and was ignored). -/
structure HandleResult where
  writes : List String
  initPending : Bool
  result : Except EngineError (Option PositionResponse)
deriving DecidableEq, Repr

/-- The message handler `StockfishActor::handle_message`: if the caller's reply channel is
already gone the select resolves to `Err(EngineError::Shutdown)`; otherwise
`go` runs to completion and its response is sent to the callback, a failed
send being ignored (`nevermind`). -/
def handleMessage (initPending : Bool) (nnue : String) (m : GoMsg) : HandleResult :=
  if m.callbackClosed then ⟨[], initPending, .error .shutdown⟩
  else
    match goModel initPending nnue m.position m.transcript with
    | (w, .error e) => ⟨w, false, .error (.ioError e)⟩
    | (w, .ok r) =>
        ⟨w, false, .ok (if m.receiverGoneAtSend then none else some r)⟩

/-- One resolution of the `tokio::select!` in `run_inner`: either the
mailbox yields (a message, or `None` when every sender is gone), or the
child process exits with the given success status. -/
inductive Event where
  | recv (m : Option GoMsg)
  | childExit (success : Bool)
deriving DecidableEq, Repr

/-- How a run of the loop ended: clean break on a closed mailbox or child
exit, an error propagated out of `run_inner` by `?`, or still waiting when
the event script ran out. -/
inductive RunExit where
  | mailboxClosed
  | processExited (success : Bool)
  | fatal (e : EngineError)
  | pending
deriving DecidableEq, Repr

/-- The loop of `StockfishActor::run_inner` over a finite event script:
collects the replies delivered to callers in order, all lines written to the
engine, and how the loop ended. A `handle_message` error exits the loop via
`?`; each message is handled to completion before the next event. -/
def runInner (nnue : String) (initPending : Bool) :
    List Event → List (Option PositionResponse) × List String × RunExit
  | [] => ([], [], .pending)
  | .recv none :: _ => ([], [], .mailboxClosed)
  | .childExit b :: _ => ([], [], .processExited b)
  | .recv (some m) :: rest =>
      let h := handleMessage initPending nnue m
      match h.result with
      | .error e => ([], h.writes, .fatal e)
      | .ok reply =>
          let (rs, ws, ex) := runInner nnue h.initPending rest
          (reply :: rs, h.writes ++ ws, ex)

/-! ## Mailbox (`channel`, `StockfishStub::go`) -/

/-- The capacity passed to `mpsc::channel` in `channel()`. -/
def stockfishChannelCapacity : Nat := 1

/-- Modelled from the spec: a bounded mailbox. A send on a full mailbox
does not complete (the sender suspends); receive takes the oldest item. -/
structure BoundedQueue (α : Type) where
  cap : Nat
  items : List α
deriving DecidableEq, Repr

/-- Attempt to enqueue: `none` means the mailbox is full and the sending
caller suspends until space is made. -/
def BoundedQueue.send? {α : Type} (q : BoundedQueue α) (x : α) : Option (BoundedQueue α) :=
  if q.items.length < q.cap then some ⟨q.cap, q.items ++ [x]⟩ else none

/-- Dequeue the oldest item, if any. -/
def BoundedQueue.recv? {α : Type} (q : BoundedQueue α) : Option (α × BoundedQueue α) :=
  match q.items with
  | [] => none
  | x :: rest => some (x, ⟨q.cap, rest⟩)

/-- The mailbox built by `channel()`: empty, with capacity
`stockfishChannelCapacity`. -/
def newStockfishMailbox (α : Type) : BoundedQueue α :=
  ⟨stockfishChannelCapacity, []⟩

/-! ## Helper lemmas -/

theorem digitChar_isDigit {k : Nat} (h : k < 10) : (Nat.digitChar k).isDigit := by
  interval_cases k <;> decide

theorem toDigitsCore_isDigit (fuel : Nat) :
    ∀ (n : Nat) (ds : List Char), (∀ c ∈ ds, c.isDigit) →
      ∀ c ∈ Nat.toDigitsCore 10 fuel n ds, c.isDigit := by
  induction fuel with
  | zero => intro n ds hds c hc; exact hds c hc
  | succ fuel ih =>
      intro n ds hds c hc
      rw [Nat.toDigitsCore] at hc
      by_cases h0 : n / 10 = 0
      · simp only [h0, if_pos rfl] at hc
        rcases List.mem_cons.mp hc with h | h
        · subst h; exact digitChar_isDigit (Nat.mod_lt _ (by decide))
        · exact hds c h
      · simp only [if_neg h0] at hc
        refine ih (n / 10) (Nat.digitChar (n % 10) :: ds) ?_ c hc
        intro d hd
        rcases List.mem_cons.mp hd with h | h
        · subst h; exact digitChar_isDigit (Nat.mod_lt _ (by decide))
        · exact hds d h

theorem natToString_isDigit (n : Nat) : ∀ c ∈ (toString n).data, c.isDigit := by
  intro c hc
  have h : (toString n).data = Nat.toDigitsCore 10 (n + 1) n [] := rfl
  rw [h] at hc
  exact toDigitsCore_isDigit (n + 1) n [] (by simp) c hc

/-- A string containing a non-digit character is not the decimal rendering
of any natural number. -/
theorem ne_natToString {s : String} {c : Char} (hc : c ∈ s.data) (hd : ¬ c.isDigit)
    (n : Nat) : s ≠ toString n := by
  intro h
  exact hd (natToString_isDigit n c (h ▸ hc))

/-! ## Demonstration inputs -/

def demoLevel : MoveLevel := ⟨3, 800, 5⟩

def demoClock : Clock := ⟨60000, 55000, 1000⟩

/-- A Move-kind order with clock data. -/
def demoMovePos : Position :=
  { work := .move 1 demoLevel (some demoClock), position_id := 1, url := none,
    flavor := .official, variant := "chess", root_fen := "fen1", moves := ["e2e4"] }

/-- A Move-kind order without clock data. -/
def demoMoveNoClockPos : Position :=
  { demoMovePos with work := .move 1 demoLevel none }

/-- An Analysis-kind order with an explicit depth ceiling. -/
def demoAnalysisPos : Position :=
  { work := .analysis 2 ⟨2250000, 4050000⟩ (some 30), position_id := 2, url := none,
    flavor := .official, variant := "chess", root_fen := "fen2", moves := [] }

/-- An Analysis-kind order without a depth ceiling. -/
def demoAnalysisNoDepthPos : Position :=
  { demoAnalysisPos with work := .analysis 2 ⟨2250000, 4050000⟩ none }

/-- The transcript of the fifth testable property of the spec. -/
def demoLines : List String :=
  ["info multipv 2 depth 10 score cp 35",
   "info multipv 1 depth 12 score mate -3",
   "bestmove e2e4"]

/-! ## Claims -/

/-- C2: for every order of Move kind, the encoder sets `UCI_AnalyseMode` to
false and issues a `go` command that always includes both a movetime bound
and a depth bound; the wtime/btime/winc/binc clock fields appear in the `go`
command if and only if clock data was present on the order. -/
theorem claim_c2_move_encoding (pos : Position) (mv : Nat) (level : MoveLevel)
    (clock : Option Clock) (h : pos.work = .move mv level clock) :
    "setoption name UCI_AnalyseMode value false" ∈ orderCmds pos ∧
    String.intercalate " " (goTokens pos) ∈ orderCmds pos ∧
    "movetime" ∈ goTokens pos ∧ "depth" ∈ goTokens pos ∧
    (("wtime" ∈ goTokens pos ∧ "btime" ∈ goTokens pos ∧
      "winc" ∈ goTokens pos ∧ "binc" ∈ goTokens pos) ↔ clock.isSome) := by
  refine ⟨?_, ?_, ?_, ?_, ?_⟩
  · simp [orderCmds, modeCmds, h]
  · simp [orderCmds]
  · simp only [goTokens, h]
    cases clock <;> simp
  · simp only [goTokens, h]
    cases clock <;> simp
  · simp only [goTokens, h]
    cases clock with
    | some c => simp
    | none =>
        simp only [Option.isSome_none, List.append_nil, Bool.false_eq_true, iff_false]
        intro hmem
        rcases hmem with ⟨h1, -, -, -⟩
        simp only [List.mem_cons, List.not_mem_nil, or_false] at h1
        rcases h1 with h1 | h1 | h1 | h1 | h1
        · exact absurd h1 (by decide)
        · exact absurd h1 (by decide)
        · exact absurd h1 (ne_natToString (c := 'w') (by decide) (by decide) _)
        · exact absurd h1 (by decide)
        · exact absurd h1 (ne_natToString (c := 'w') (by decide) (by decide) _)

/-- C2 witness: the theorem applied to the concrete Move order with a clock. -/
theorem claim_c2_move_encoding_witness :
    "setoption name UCI_AnalyseMode value false" ∈ orderCmds demoMovePos ∧
    String.intercalate " " (goTokens demoMovePos) ∈ orderCmds demoMovePos ∧
    "movetime" ∈ goTokens demoMovePos ∧ "depth" ∈ goTokens demoMovePos ∧
    (("wtime" ∈ goTokens demoMovePos ∧ "btime" ∈ goTokens demoMovePos ∧
      "winc" ∈ goTokens demoMovePos ∧ "binc" ∈ goTokens demoMovePos)
      ↔ (some demoClock).isSome) :=
  claim_c2_move_encoding demoMovePos 1 demoLevel (some demoClock) rfl

/-- C3: for every order of Analysis kind, the encoder sets `UCI_AnalyseMode`
to true, sets `Skill Level` to the fixed maximum 20, and issues a `go`
command that always includes a nodes bound; a depth bound appears in the
`go` command if and only if the order requested an explicit depth ceiling. -/
theorem claim_c3_analysis_encoding (pos : Position) (mv : Nat) (nodes : NodeLimit)
    (depth : Option Nat) (h : pos.work = .analysis mv nodes depth) :
    "setoption name UCI_AnalyseMode value true" ∈ orderCmds pos ∧
    "setoption name Skill Level value 20" ∈ orderCmds pos ∧
    String.intercalate " " (goTokens pos) ∈ orderCmds pos ∧
    "nodes" ∈ goTokens pos ∧
    ("depth" ∈ goTokens pos ↔ depth.isSome) := by
  refine ⟨?_, ?_, ?_, ?_, ?_⟩
  · simp [orderCmds, modeCmds, h]
  · simp [orderCmds, modeCmds, h]
  · simp [orderCmds]
  · simp only [goTokens, h]
    cases depth <;> simp
  · simp only [goTokens, h]
    cases depth with
    | some d => simp
    | none =>
        simp only [Option.isSome_none, List.append_nil, Bool.false_eq_true, iff_false]
        intro hmem
        simp only [List.mem_cons, List.not_mem_nil, or_false] at hmem
        rcases hmem with h1 | h1 | h1
        · exact absurd h1 (by decide)
        · exact absurd h1 (by decide)
        · exact absurd h1 (ne_natToString (c := 'd') (by decide) (by decide) _)

/-- C3 witness: the theorem applied to the concrete Analysis order with a
depth ceiling. -/
theorem claim_c3_analysis_encoding_witness :
    "setoption name UCI_AnalyseMode value true" ∈ orderCmds demoAnalysisPos ∧
    "setoption name Skill Level value 20" ∈ orderCmds demoAnalysisPos ∧
    String.intercalate " " (goTokens demoAnalysisPos) ∈ orderCmds demoAnalysisPos ∧
    "nodes" ∈ goTokens demoAnalysisPos ∧
    ("depth" ∈ goTokens demoAnalysisPos ↔ (some 30 : Option Nat).isSome) :=
  claim_c3_analysis_encoding demoAnalysisPos 2 ⟨2250000, 4050000⟩ (some 30) rfl

/-- Feeding `parsePv` any token list containing an unparseable move token
fails with the `invalid pv` error. -/
theorem parsePv_error {t : String} (ht : parseUciMove t = none) :
    ∀ ts : List String, t ∈ ts → parsePv ts = .error (.invalidData "invalid pv") := by
  intro ts
  induction ts with
  | nil => intro h; cases h
  | cons x rest ih =>
      intro hmem
      rcases hx : parseUciMove x with _ | m
      · simp [parsePv, hx]
      · rcases List.mem_cons.mp hmem with h | h
        · rw [h, hx] at ht; cases ht
        · simp [parsePv, hx, ih h]

/-- C4: a terminal `bestmove` line reached while the Response Table's best
known entry for line index 1 is absent fails with the `missing score`
protocol error, and a whole transcript beginning with a terminal line
yields that error and no response. -/
theorem claim_c4_missing_score :
    (∀ (pos : Position) (st : GoState) (parts : List String),
       st.scores.best = none →
       processParts pos st ("bestmove" :: parts) = .error (.invalidData "missing score")) ∧
    (∀ (pos : Position) (rest : List String),
       decodeLines pos ("bestmove e2e4" :: rest) = .error (.invalidData "missing score")) := by
  constructor
  · intro pos st parts h
    simp [processParts, h]
  · intro pos rest
    rfl

/-- C4 witness: the freshly reset state has no best known score, and a
`bestmove` line processed there errors. -/
theorem claim_c4_missing_score_witness :
    initState.scores.best = none ∧
    processParts demoAnalysisPos initState ["bestmove"] = .error (.invalidData "missing score") :=
  ⟨rfl, claim_c4_missing_score.1 demoAnalysisPos initState ["bestmove"] rfl⟩

/-- C5: decoding `info multipv 2 depth 10 score cp 35`, then
`info multipv 1 depth 12 score mate -3`, then `bestmove e2e4` yields a
response whose best known line-1 score is mate -3 recorded at depth 12 and
whose best move is e2e4, whatever the originating order. -/
theorem claim_c5_transcript (pos : Position) :
    (decodeLines pos demoLines).map (fun r => (r.scores.bestEntry, r.best_move))
      = .ok (some ((1, 12), Score.mate (-3)), some "e2e4") := rfl

/-- C6 counterexample: an unparseable move token after the terminal
`bestmove` keyword does not abort decoding — the order decodes successfully
with no best move. -/
theorem claim_c6_counterexample :
    parseUciMove "ZZZZ" = none ∧
    (decodeLines demoAnalysisPos ["info depth 1 score cp 5", "bestmove ZZZZ"]).map
      (fun r => r.best_move) = .ok none :=
  ⟨rfl, rfl⟩

/-- A decoder state with one recorded line-1 score, for exercising the
terminal branch. -/
def stWithScore : GoState :=
  { initState with scores := Matrix.set Matrix.new 1 1 (.cp 5) }

/-- C6 amended: an unparseable move token in a principal-variation list is a
protocol decode error (`invalid pv`) aborting the order, while an
unparseable move token after the terminal `bestmove` keyword is silently
discarded, producing a response with no best move. -/
theorem claim_c6_amended :
    (∀ (pos : Position) (st : GoState) (t : String) (ts : List String),
       t ∈ ts → parseUciMove t = none →
       processParts pos st ("info" :: "pv" :: ts) = .error (.invalidData "invalid pv")) ∧
    (∀ (pos : Position) (st : GoState) (t : String) (rest : List String),
       (st.scores.best).isSome = true → parseUciMove t = none →
       processParts pos st ("bestmove" :: t :: rest) = .ok (.done (mkResponse pos st none))) := by
  constructor
  · intro pos st t ts hmem ht
    have hpv := parsePv_error ht ts hmem
    simp [processParts, infoLoop, hpv, Except.map]
  · intro pos st t rest hs ht
    have hn : (st.scores.best).isNone = false := by
      rcases h : st.scores.best with _ | v
      · rw [h] at hs; cases hs
      · rfl
    simp [processParts, hn, ht]

/-- C6 amended witness: both branches exercised on the unparseable token
`ZZZZ`. -/
theorem claim_c6_amended_witness :
    processParts demoAnalysisPos initState ["info", "pv", "ZZZZ"]
      = .error (.invalidData "invalid pv") ∧
    processParts demoAnalysisPos stWithScore ["bestmove", "ZZZZ"]
      = .ok (.done (mkResponse demoAnalysisPos stWithScore none)) :=
  ⟨claim_c6_amended.1 demoAnalysisPos initState "ZZZZ" ["ZZZZ"] (by decide) rfl,
   claim_c6_amended.2 demoAnalysisPos stWithScore "ZZZZ" [] rfl rfl⟩

/-- C10: within one order, the current line index and depth persist across
info lines — a score or pv with no multipv (or depth) key on its own line is
recorded under the most recently parsed line index and depth, whatever state
the earlier lines left; the two are re-initialized to 1 and 0 only with the
fresh state each order starts from. -/
theorem claim_c10_sticky_state :
    (∀ (pos : Position) (st : GoState),
       processLine pos st "info score cp 5" =
         .ok (.cont { st with scores := st.scores.set st.multipv st.depth (.cp 5) })) ∧
    (∀ (pos : Position) (st : GoState),
       processLine pos st "info pv e2e4" =
         .ok (.cont { st with pvs := st.pvs.set st.multipv st.depth ["e2e4"] })) ∧
    (∀ (pos : Position) (st : GoState),
       processLine pos st "info multipv 3 depth 9" =
         .ok (.cont { st with multipv := 3, depth := 9 })) ∧
    initState.multipv = 1 ∧ initState.depth = 0 ∧
    (∀ (pos : Position) (lines : List String),
       decodeLines pos lines = decodeLoop pos initState lines) :=
  ⟨fun _ _ => rfl, fun _ _ => rfl, fun _ _ => rfl, rfl, rfl, fun _ _ => rfl⟩

/-! ## Actor-level demonstration inputs -/

/-- A two-line engine transcript for one order: one score line, one
terminal line. -/
def plainTranscript : List String :=
  ["info depth 1 score cp 5", "bestmove e2e4"]

/-- A message whose caller abandoned its wait before a reply arrived. -/
def closedMsg : GoMsg :=
  { position := demoAnalysisPos, transcript := [],
    callbackClosed := true, receiverGoneAtSend := false }

/-- A normally completed first message, engine still to be initialized. -/
def okMsg : GoMsg :=
  { position := demoAnalysisPos, transcript := "readyok" :: plainTranscript,
    callbackClosed := false, receiverGoneAtSend := false }

/-- A normally completed message against an already initialized engine. -/
def okMsg2 : GoMsg :=
  { position := demoMovePos, transcript := plainTranscript,
    callbackClosed := false, receiverGoneAtSend := false }

/-- A message whose reply channel is dropped only between completion and
`callback.send`. -/
def sendDropMsg : GoMsg :=
  { position := demoAnalysisPos, transcript := plainTranscript,
    callbackClosed := false, receiverGoneAtSend := true }

/-- The response decoded from `plainTranscript` for `demoAnalysisPos`. -/
def demoResp : PositionResponse :=
  { work := demoAnalysisPos.work, position_id := demoAnalysisPos.position_id,
    url := demoAnalysisPos.url, best_move := some "e2e4",
    scores := ⟨[((1, 1), .cp 5)]⟩, depth := 1, pvs := Matrix.new,
    time := 0, nodes := 0, nps := none }

/-- When `handle_message` returns `Ok`, the one-time initialization has been
consumed. -/
theorem handleMessage_ok_initPending {ip : Bool} {nnue : String} {m : GoMsg}
    {r : Option PositionResponse} (h : (handleMessage ip nnue m).result = .ok r) :
    (handleMessage ip nnue m).initPending = false := by
  cases hc : m.callbackClosed
  · rcases hg : goModel ip nnue m.position m.transcript with ⟨w, res⟩
    rcases res with e | resp
    · simp [handleMessage, hc, hg] at h
    · simp [handleMessage, hc, hg]
  · simp [handleMessage, hc] at h

/-- Unfolding one successfully handled message at the head of the event
script. -/
theorem runInner_cons_ok {nnue : String} {ip : Bool} {m : GoMsg} {rest : List Event}
    {o : Option PositionResponse} (h : (handleMessage ip nnue m).result = .ok o) :
    runInner nnue ip (.recv (some m) :: rest)
      = (o :: (runInner nnue (handleMessage ip nnue m).initPending rest).1,
         (handleMessage ip nnue m).writes
           ++ (runInner nnue (handleMessage ip nnue m).initPending rest).2.1,
         (runInner nnue (handleMessage ip nnue m).initPending rest).2.2) := by
  rcases hr : runInner nnue (handleMessage ip nnue m).initPending rest with ⟨rs, ws, ex⟩
  simp [runInner, h, hr]

/-- C1 counterexample: with a concrete event script, a caller abandoning its
wait during processing makes the run loop exit with the Shutdown error — no
later order is served, so the Actor does not remain available. -/
theorem claim_c1_counterexample :
    closedMsg.callbackClosed = true ∧
    runInner "nn" true [.recv (some closedMsg), .recv (some okMsg2)]
      = ([], [], .fatal .shutdown) :=
  ⟨rfl, rfl⟩

/-- C1 amended: if the caller abandons its wait while the order is being
processed, `handle_message` yields the Shutdown error and the run loop
exits, serving no further order; only a reply channel dropped after
processing completes is tolerated — that one request's reply is discarded
and the loop continues. -/
theorem claim_c1_amended :
    (∀ (nnue : String) (ip : Bool) (m : GoMsg) (rest : List Event),
       m.callbackClosed = true →
       runInner nnue ip (.recv (some m) :: rest) = ([], [], .fatal .shutdown)) ∧
    (∀ (nnue : String) (ip : Bool) (m : GoMsg) (rest : List Event)
       (w : List String) (r : PositionResponse),
       m.callbackClosed = false → m.receiverGoneAtSend = true →
       goModel ip nnue m.position m.transcript = (w, .ok r) →
       runInner nnue ip (.recv (some m) :: rest)
         = (none :: (runInner nnue false rest).1,
            w ++ (runInner nnue false rest).2.1,
            (runInner nnue false rest).2.2)) := by
  constructor
  · intro nnue ip m rest h
    simp [runInner, handleMessage, h]
  · intro nnue ip m rest w r h1 h2 hg
    rcases hr : runInner nnue false rest with ⟨rs, ws, ex⟩
    simp [runInner, handleMessage, h1, h2, hg, hr]

/-- C1 amended witness: both behaviors at concrete inputs. -/
theorem claim_c1_amended_witness :
    runInner "nn" true [.recv (some closedMsg)] = ([], [], .fatal .shutdown) ∧
    runInner "nn" false [.recv (some sendDropMsg)]
      = ([none], orderCmds demoAnalysisPos, .pending) := by
  refine ⟨claim_c1_amended.1 "nn" true closedMsg [] rfl, ?_⟩
  have h := claim_c1_amended.2 "nn" false sendDropMsg []
    (orderCmds demoAnalysisPos) demoResp rfl rfl rfl
  simpa using h

/-- C7: every order's decoding starts from the all-empty initial state —
empty score and pv tables, depth 0, line index 1, zero time and nodes, no
nps — and the replies to later orders are exactly what they would be in a
run that never saw the earlier order, so no Response Table state leaks
across orders. -/
theorem claim_c7_fresh_state :
    (initState = { scores := Matrix.new, pvs := Matrix.new, depth := 0,
                   multipv := 1, time := 0, nodes := 0, nps := none }) ∧
    (∀ (nnue : String) (pos : Position) (transcript : List String),
       (goModel false nnue pos transcript).2 = decodeLoop pos initState transcript) ∧
    (∀ (nnue : String) (m₁ m₂ : GoMsg) (r₁ : Option PositionResponse),
       (handleMessage true nnue m₁).result = .ok r₁ →
       (runInner nnue true [.recv (some m₁), .recv (some m₂)]).1
         = r₁ :: (runInner nnue false [.recv (some m₂)]).1) := by
  refine ⟨rfl, fun _ _ _ => rfl, ?_⟩
  intro nnue m₁ m₂ r₁ h
  have hip := handleMessage_ok_initPending h
  rw [runInner_cons_ok h, hip]

/-- C7 witness: a concrete two-order run whose second order's replies match
the fresh single-order run. -/
theorem claim_c7_fresh_state_witness :
    (runInner "nn" true [.recv (some okMsg), .recv (some okMsg2)]).1
      = some demoResp :: (runInner "nn" false [.recv (some okMsg2)]).1 :=
  claim_c7_fresh_state.2.2 "nn" okMsg okMsg2 (some demoResp) rfl

/-- C8: the initialization read loop stops exactly at the first `readyok`
line, never aborting on a banner or unexpected line, and only end of stream
fails it; across a whole run the one-time initialization commands are
written exactly once, before the first order's commands and never again. -/
theorem claim_c8_init_once :
    (∀ (pre : List String) (l : String) (post : List String),
       (∀ x ∈ pre, rustTrimEnd x ≠ "readyok") → rustTrimEnd l = "readyok" →
       initConsume (pre ++ l :: post) = .ok post) ∧
    (∀ lines : List String, (∀ x ∈ lines, rustTrimEnd x ≠ "readyok") →
       initConsume lines = .error .unexpectedEof) ∧
    (∀ (nnue : String) (m₁ m₂ : GoMsg) (t₁ : List String) (r₁ : PositionResponse),
       m₁.callbackClosed = false → m₂.callbackClosed = false →
       initConsume m₁.transcript = .ok t₁ →
       decodeLines m₁.position t₁ = .ok r₁ →
       (runInner nnue true [.recv (some m₁), .recv (some m₂)]).2.1
         = initCmds nnue ++ orderCmds m₁.position ++ orderCmds m₂.position) := by
  refine ⟨?_, ?_, ?_⟩
  · intro pre l post
    induction pre with
    | nil => intro _ hl; simp [initConsume, hl]
    | cons x xs ih =>
        intro hpre hl
        have hx : rustTrimEnd x ≠ "readyok" := hpre x (by simp)
        rw [List.cons_append]
        rw [show initConsume (x :: (xs ++ l :: post)) = initConsume (xs ++ l :: post)
          from by simp [initConsume, hx]]
        exact ih (fun y hy => hpre y (List.mem_cons_of_mem x hy)) hl
  · intro lines
    induction lines with
    | nil => intro _; rfl
    | cons x xs ih =>
        intro h
        have hx : rustTrimEnd x ≠ "readyok" := h x (by simp)
        rw [show initConsume (x :: xs) = initConsume xs from by simp [initConsume, hx]]
        exact ih (fun y hy => h y (List.mem_cons_of_mem x hy))
  · intro nnue m₁ m₂ t₁ r₁ h1 h2 hic hdec
    rcases hd : decodeLines m₂.position m₂.transcript with e | r <;>
      simp [runInner, handleMessage, goModel, h1, h2, hic, hdec, hd]

/-- C8 witness: a concrete two-order run writes the init commands once, up
front. -/
theorem claim_c8_init_once_witness :
    (runInner "nn" true [.recv (some okMsg), .recv (some okMsg2)]).2.1
      = initCmds "nn" ++ orderCmds demoAnalysisPos ++ orderCmds demoMovePos :=
  claim_c8_init_once.2.2 "nn" okMsg okMsg2 plainTranscript demoResp rfl rfl rfl rfl

/-- C9: the mailbox built by `channel` has capacity exactly one, so a second
send while one order is queued does not complete until the first is
dequeued; dequeueing is strictly FIFO; and the run loop serves one message
to completion before any later event, delivering the first order's reply
ahead of all later replies. -/
theorem claim_c9_mailbox :
    stockfishChannelCapacity = 1 ∧
    (∀ (α : Type) (m₁ m₂ : α),
       (newStockfishMailbox α).send? m₁ = some ⟨1, [m₁]⟩ ∧
       (⟨1, [m₁]⟩ : BoundedQueue α).send? m₂ = none ∧
       (⟨1, [m₁]⟩ : BoundedQueue α).recv? = some (m₁, ⟨1, []⟩) ∧
       (⟨1, ([] : List α)⟩ : BoundedQueue α).send? m₂ = some ⟨1, [m₂]⟩) ∧
    (∀ (α : Type) (c : Nat) (x : α) (rest : List α),
       (⟨c, x :: rest⟩ : BoundedQueue α).recv? = some (x, ⟨c, rest⟩)) ∧
    (∀ (nnue : String) (ip : Bool) (m : GoMsg) (rest : List Event)
       (o : Option PositionResponse),
       (handleMessage ip nnue m).result = .ok o →
       (runInner nnue ip (.recv (some m) :: rest)).1
         = o :: (runInner nnue (handleMessage ip nnue m).initPending rest).1) := by
  refine ⟨rfl, fun α m₁ m₂ => ⟨rfl, rfl, rfl, rfl⟩, fun α c x rest => rfl, ?_⟩
  intro nnue ip m rest o h
  rw [runInner_cons_ok h]

/-- C9 witness: the serving-order conjunct at a concrete input. -/
theorem claim_c9_mailbox_witness :
    (runInner "nn" false [.recv (some sendDropMsg)]).1
      = none :: (runInner "nn" (handleMessage false "nn" sendDropMsg).initPending []).1 :=
  claim_c9_mailbox.2.2.2 "nn" false sendDropMsg [] none rfl

end Fishnet
